import Mathlib

/-!
Verification development for the fsuipc-rs core: the bounded byte cursors of
`src/raw.rs` (`RawBytes`, `MutRawBytes`), and the session engine of
`src/user.rs` (`UserSession::read_bytes` / `write_bytes` / `process`).

Machine memory is modelled as `List UInt8`.  A `RawBytes` value models the
Rust struct: `data` is the memory seen from the current pointer onward (the
source pointer advances, so the list shrinks from the front), `len` the
remaining clamp, `read` the consumed counter.  A `MutRawBytes` value models
the Rust struct: `data` is the memory at the `Arc<*mut u8>` base pointer —
the pointer stored in the `Arc` is never reassigned by the source, so the
base of `data` is fixed for the lifetime of the cursor — and `len` the
remaining clamp.
-/

/-- Embeds `RawBytes` (src/raw.rs lines 13–17). -/
structure RawBytes where
  data : List UInt8
  len : Nat
  read : Nat
deriving Repr, DecidableEq

/-- Embeds `RawBytes::new` (src/raw.rs lines 20–22). -/
def RawBytes.new (data : List UInt8) (len : Nat) : RawBytes :=
  ⟨data, len, 0⟩

/-- Embeds `RawBytes::consumed` (src/raw.rs lines 24–26). -/
def RawBytes.consumed (s : RawBytes) : Nat := s.read

/-- The loop body of `<RawBytes as io::Read>::read` (src/raw.rs lines 33–38):
`n` iterations, each copying `*self.data` into the next slot of `buff`,
then advancing the source pointer and adjusting `len` and `read`.
`List.headD` models the dereference `*self.data` (in bounds whenever the
cursor is well formed, i.e. `len ≤ data.length`). -/
def readLoop : Nat → RawBytes → List UInt8 → RawBytes × List UInt8
  | 0, s, buff => (s, buff)
  | Nat.succ n, s, buff =>
    match buff with
    | [] => (s, [])
    | _ :: rest =>
      let item := s.data.headD 0
      let s' : RawBytes := ⟨s.data.tail, s.len - 1, s.read + 1⟩
      let out := readLoop n s' rest
      (out.1, item :: out.2)

/-- Embeds `<RawBytes as io::Read>::read` (src/raw.rs lines 29–42) as a pure
state transformer: returns `(nbytes, updated buff, updated cursor)` where
`nbytes = min(self.len, buff.len())`. -/
def RawBytes.readImpl (s : RawBytes) (buff : List UInt8) :
    Nat × List UInt8 × RawBytes :=
  let nbytes := min s.len buff.length
  let out := readLoop nbytes s buff
  (nbytes, out.2, out.1)

/-- Embeds the `io::Result` shape of `<RawBytes as io::Read>::read`: the
source function's only exit is `Ok(nbytes)`.  (Named `ioRead` because the
struct field `read` occupies the name `RawBytes.read`.) -/
def RawBytes.ioRead (s : RawBytes) (buff : List UInt8) :
    Except String (Nat × List UInt8 × RawBytes) :=
  Except.ok (s.readImpl buff)

/-- Embeds `MutRawBytes` (src/raw.rs lines 44–48): `data` is the memory at
the `Arc` base pointer, `len` the remaining clamp. -/
structure MutRawBytes where
  data : List UInt8
  len : Nat
deriving Repr, DecidableEq

/-- Embeds `MutRawBytes::new` (src/raw.rs lines 51–53). -/
def MutRawBytes.new (data : List UInt8) (len : Nat) : MutRawBytes :=
  ⟨data, len⟩

/-- The loop body of `<MutRawBytes as io::Write>::write` (src/raw.rs lines
61–66).  Faithful to the source: each iteration re-reads the base pointer
`*self.data` into a fresh local, stores the current input byte through it
(hence `List.set 0`), increments only that local (the increment is
discarded — the source even carries `#[allow(unused_assignments)]`), and
decrements `len`.  The stored pointer is never advanced. -/
def writeLoop : List UInt8 → MutRawBytes → MutRawBytes
  | [], s => s
  | item :: rest, s => writeLoop rest ⟨s.data.set 0 item, s.len - 1⟩

/-- Embeds `<MutRawBytes as io::Write>::write` (src/raw.rs lines 56–69) as a
pure state transformer: `nbytes = min(self.len, buff.len())` bytes of `buff`
are pushed through the loop, and `nbytes` is returned. -/
def MutRawBytes.writeImpl (s : MutRawBytes) (buff : List UInt8) :
    Nat × MutRawBytes :=
  let nbytes := min s.len buff.length
  (nbytes, writeLoop (buff.take nbytes) s)

/-- Embeds the `io::Result` shape of `<MutRawBytes as io::Write>::write`:
the source function's only exit is `Ok(nbytes)`. -/
def MutRawBytes.write (s : MutRawBytes) (buff : List UInt8) :
    Except String (Nat × MutRawBytes) :=
  Except.ok (s.writeImpl buff)

/-- Embeds `<MutRawBytes as io::Write>::flush` (src/raw.rs lines 71–73):
returns `Ok(())` and leaves the cursor untouched. -/
def MutRawBytes.flush (_s : MutRawBytes) : Except String Unit :=
  Except.ok ()

/-!
The command-frame codec lives in the crate's `ipc` module (`super::ipc` in
src/user.rs), whose source is not among the files at hand; only its use
sites in src/user.rs are.  The shape of `MsgHeader` below is taken from the
`match` in `UserSession::process` (src/user.rs lines 166–181): three
variants, with `ReadStateData` carrying `offset`, `len` and a destination
pointer `target` (modelled as a `Nat` address into a heap of caller
destination buffers).  The codec functions themselves are modelled from the
spec, as marked on each.
-/

/-- The `MsgHeader` enum of the `ipc` module, with the variant shapes used
by `UserSession::process` (src/user.rs lines 166–181). -/
inductive MsgHeader where
  | ReadStateData (offset : Nat) (len : Nat) (target : Nat)
  | WriteStateData (offset : Nat) (len : Nat)
  | TerminationMark
deriving Repr, DecidableEq

/-- Little-endian decoding of a byte list into a natural number. -/
def leNat : List UInt8 → Nat
  | [] => 0
  | b :: rest => b.toNat + 256 * leNat rest

/-- Two-byte little-endian encoding of a 16-bit value. -/
def u16le (v : Nat) : List UInt8 :=
  [UInt8.ofNat (v % 256), UInt8.ofNat (v / 256 % 256)]

/-- Four-byte little-endian encoding of a 32-bit value. -/
def u32le (v : Nat) : List UInt8 :=
  [UInt8.ofNat (v % 256), UInt8.ofNat (v / 256 % 256),
   UInt8.ofNat (v / 65536 % 256), UInt8.ofNat (v / 16777216 % 256)]

/-- Modelled from the spec: the wire encoding of a frame header (spec §6:
one discriminant byte, two offset bytes, two length bytes, no padding; the
termination frame is the discriminant alone).  `ReadStateData` additionally
carries the four-byte `target` destination address, which
`UserSession::process` recovers from the decoded header. -/
def headerBytes : MsgHeader → List UInt8
  | MsgHeader.ReadStateData offset len target =>
      1 :: (u16le offset ++ u16le len ++ u32le target)
  | MsgHeader.WriteStateData offset len =>
      2 :: (u16le offset ++ u16le len)
  | MsgHeader.TerminationMark => [0]

/-- Reads exactly `n` bytes through the `RawBytes` cursor; a short read
(source exhausted before `n` bytes) is a malformed-frame failure — spec §7:
"a frame claims a length that runs past the buffer". -/
def RawBytes.readExact (s : RawBytes) (n : Nat) :
    Except String (List UInt8 × RawBytes) :=
  let r := s.readImpl (List.replicate n 0)
  if r.1 = n then Except.ok (r.2.1, r.2.2) else Except.error "MalformedFrame"

/-- Modelled from the spec: `decode_header` (`RawBytes::read_header` in the
`ipc` module) reads the discriminant and then the header fields of the
matching variant; an unknown discriminant fails with `MalformedFrame`
(spec §4.2). -/
def RawBytes.read_header (s : RawBytes) : Except String (MsgHeader × RawBytes) := do
  let (d, s1) ← s.readExact 1
  if d = [1] then do
    let (ob, s2) ← s1.readExact 2
    let (lb, s3) ← s2.readExact 2
    let (tb, s4) ← s3.readExact 4
    return (MsgHeader.ReadStateData (leNat ob) (leNat lb) (leNat tb), s4)
  else if d = [2] then do
    let (ob, s2) ← s1.readExact 2
    let (lb, s3) ← s2.readExact 2
    return (MsgHeader.WriteStateData (leNat ob) (leNat lb), s3)
  else if d = [0] then
    return (MsgHeader.TerminationMark, s1)
  else
    Except.error "MalformedFrame"

/-- The sink a decoded frame body is copied into: either a `MutRawBytes`
write cursor over a caller destination, or the discarding `io::sink()` used
for `WriteStateData` echoes (src/user.rs line 177). -/
inductive Sink where
  | mutBytes (m : MutRawBytes)
  | discard
deriving Repr, DecidableEq

/-- Writing to a sink: a `MutRawBytes` sink goes through the embedded
`MutRawBytes::write`; the discard sink drops the bytes. -/
def Sink.write (out : Sink) (bs : List UInt8) : Sink :=
  match out with
  | Sink.mutBytes m => Sink.mutBytes (m.writeImpl bs).2
  | Sink.discard => Sink.discard

/-- Modelled from the spec: `decode_body` (`RawBytes::read_body` in the
`ipc` module) copies `length` bytes from the reader into the sink for
`ReadStateData` and `WriteStateData`, and is a no-op for `TerminationMark`
(spec §4.2). -/
def RawBytes.read_body (s : RawBytes) (h : MsgHeader) (out : Sink) :
    Except String (Sink × RawBytes) :=
  match h with
  | MsgHeader.ReadStateData _ len _ => do
      let (bs, s') ← s.readExact len
      return (out.write bs, s')
  | MsgHeader.WriteStateData _ len => do
      let (bs, s') ← s.readExact len
      return (out.write bs, s')
  | MsgHeader.TerminationMark => Except.ok (out, s)

/-- Modelled from the spec: `MutRawBytes::write_header` of the `ipc` module
serializes a frame header through the write cursor; a header that cannot
fit in the remaining shared-buffer capacity fails with `BufferExhausted`
and leaves the cursor untouched (spec §4.3 / §8).  The pair returns the
cursor state on both exits, mirroring `&mut self`. -/
def MutRawBytes.write_header (s : MutRawBytes) (h : MsgHeader) :
    (Except String Nat) × MutRawBytes :=
  let bs := headerBytes h
  if bs.length ≤ s.len then
    let r := s.writeImpl bs
    (Except.ok r.1, r.2)
  else
    (Except.error "BufferExhausted", s)

/-- Modelled from the spec: `MutRawBytes::write_rsd` of the `ipc` module
encodes a `ReadRequest` frame — header only, no payload (spec §4.2) — into
the outgoing buffer, recording the caller destination `dest` in the frame;
it fails with `BufferExhausted`, leaving the buffer untouched, when the
frame cannot fit in the remaining capacity (spec §4.3 / §8). -/
def MutRawBytes.write_rsd (s : MutRawBytes) (offset dest len : Nat) :
    (Except String Nat) × MutRawBytes :=
  let frame := headerBytes (MsgHeader.ReadStateData offset len dest)
  if frame.length ≤ s.len then
    let r := s.writeImpl frame
    (Except.ok r.1, r.2)
  else
    (Except.error "BufferExhausted", s)

/-- Modelled from the spec: `MutRawBytes::write_wsd` of the `ipc` module
encodes a `WriteRequest` frame — header then the payload bytes (spec §4.2)
— into the outgoing buffer; it fails with `BufferExhausted`, leaving the
buffer untouched, when the frame cannot fit in the remaining capacity
(spec §4.3 / §8). -/
def MutRawBytes.write_wsd (s : MutRawBytes) (offset : Nat)
    (payload : List UInt8) : (Except String Nat) × MutRawBytes :=
  let frame := headerBytes (MsgHeader.WriteStateData offset payload.length)
      ++ payload
  if frame.length ≤ s.len then
    let r := s.writeImpl frame
    (Except.ok r.1, r.2)
  else
    (Except.error "BufferExhausted", s)

/-!
The session engine of src/user.rs.  A `UserSession` is modelled by the
state of its `buffer : MutRawBytes` (the `UserHandle` fields are Windows
resources of the external connection collaborator).  Caller destinations
live in a heap mapping a destination address to that destination buffer's
contents; `MutRawBytes::new(target.into(), len)` in `process` opens a write
cursor over the addressed buffer.

The commit-and-wait primitive (`SendMessageA` in src/user.rs lines
149–154) is the external collaborator of spec §1/§4.4: the peer's status
code and the response stream it leaves in the shared region are parameters
of the embedded `process`.
-/

/-- Caller destination memory: one byte buffer per destination address. -/
def Heap : Type := Nat → List UInt8

/-- Embeds `FILE_MAPPING_LEN` (src/user.rs line 196). -/
def FILE_MAPPING_LEN : Nat := 64 * 1024

/-- Embeds `FS6IPC_MESSAGE_SUCCESS` (src/user.rs line 195). -/
def FS6IPC_MESSAGE_SUCCESS : Int := 1

/-- Embeds `UserSession::read_bytes` (src/user.rs lines 138–140):
delegates to `MutRawBytes::write_rsd` on the session buffer. -/
def UserSession.read_bytes (buffer : MutRawBytes) (offset dest len : Nat) :
    (Except String Nat) × MutRawBytes :=
  buffer.write_rsd offset dest len

/-- Embeds `UserSession::write_bytes` (src/user.rs lines 142–144):
delegates to `MutRawBytes::write_wsd` on the session buffer. -/
def UserSession.write_bytes (buffer : MutRawBytes) (offset : Nat)
    (src : List UInt8) : (Except String Nat) × MutRawBytes :=
  buffer.write_wsd offset src

/-- The demultiplexing loop of `UserSession::process` (src/user.rs lines
165–182): decode a header; for `ReadStateData` open a write cursor over the
registered destination and copy the body into it; for `WriteStateData` copy
the body into the discarding sink; for `TerminationMark` return
`buffer.consumed()`.  `fuel` bounds the iteration count (the source loop
terminates only on a `TerminationMark` or a decode failure). -/
def processLoop : Nat → RawBytes → Heap → Except String (Nat × Heap)
  | 0, _, _ => Except.error "MalformedFrame"
  | Nat.succ fuel, buffer, heap => do
    let (header, buffer1) ← buffer.read_header
    match header with
    | MsgHeader.ReadStateData _ len target => do
        let output := MutRawBytes.new (heap target) len
        let (out', buffer2) ← buffer1.read_body header (Sink.mutBytes output)
        match out' with
        | Sink.mutBytes m =>
            processLoop fuel buffer2
              (fun t => if t = target then m.data else heap t)
        | Sink.discard => processLoop fuel buffer2 heap
    | MsgHeader.WriteStateData _ _ => do
        let (_, buffer2) ← buffer1.read_body header Sink.discard
        processLoop fuel buffer2 heap
    | MsgHeader.TerminationMark => Except.ok (buffer1.consumed, heap)

/-- Embeds `UserSession::process` (src/user.rs lines 146–184).  The
external commit-and-wait is stipulated by two parameters: `send_result`,
the peer status returned by `SendMessageA`, and `response`, the contents
the peer leaves in the shared region.  Steps, as in the source: write the
`TerminationMark` header into the outgoing buffer; fail if the status is
not `FS6IPC_MESSAGE_SUCCESS`; otherwise reopen the region as a fresh
`RawBytes` cursor of length `FILE_MAPPING_LEN` (bytes past the stipulated
`response` read as the region's zero fill) and demultiplex. -/
def UserSession.process (buffer : MutRawBytes) (send_result : Int)
    (response : List UInt8) (heap : Heap) : Except String (Nat × Heap) :=
  match (buffer.write_header MsgHeader.TerminationMark).1 with
  | Except.error e => Except.error e
  | Except.ok _ =>
    if send_result ≠ FS6IPC_MESSAGE_SUCCESS then
      Except.error ("FSUIPC rejected the requests with error "
        ++ toString send_result ++ "; possible buffer corruption")
    else
      processLoop (response.length + 1)
        (RawBytes.new response FILE_MAPPING_LEN) heap

/-- Runs a sequence of `RawBytes::read` calls with the given destination
buffers, collecting the returned byte counts. -/
def runReads : RawBytes → List (List UInt8) → List Nat × RawBytes
  | s, [] => ([], s)
  | s, b :: bs =>
    let r := s.readImpl b
    let rest := runReads r.2.2 bs
    (r.1 :: rest.1, rest.2)

/-- Runs a sequence of `MutRawBytes::write` calls with the given input
buffers, collecting the returned byte counts. -/
def runWrites : MutRawBytes → List (List UInt8) → List Nat × MutRawBytes
  | s, [] => ([], s)
  | s, b :: bs =>
    let r := s.writeImpl b
    let rest := runWrites r.2 bs
    (r.1 :: rest.1, rest.2)

/-! Helper lemmas about the cursor loops. -/

lemma readLoop_spec : ∀ (n : Nat) (s : RawBytes) (buff : List UInt8),
    n ≤ buff.length → n ≤ s.data.length →
    readLoop n s buff =
      (⟨s.data.drop n, s.len - n, s.read + n⟩, s.data.take n ++ buff.drop n) := by
  intro n
  induction n with
  | zero =>
    intro s buff _ _
    simp [readLoop]
  | succ k ih =>
    intro s buff hb hd
    match s, buff with
    | ⟨data, len, rd⟩, [] => simp at hb
    | ⟨[], len, rd⟩, b :: rest => simp at hd
    | ⟨d :: ds, len, rd⟩, b :: rest =>
      have h1 : len - 1 - k = len - (k + 1) := by omega
      have h2 : rd + 1 + k = rd + (k + 1) := by omega
      simp [readLoop,
        ih ⟨ds, len - 1, rd + 1⟩ rest (by simpa using hb) (by simpa using hd),
        h1, h2]

lemma readLoop_state : ∀ (n : Nat) (s : RawBytes) (buff : List UInt8),
    n ≤ buff.length →
    (readLoop n s buff).1.len = s.len - n ∧
    (readLoop n s buff).1.read = s.read + n := by
  intro n
  induction n with
  | zero =>
    intro s buff _
    simp [readLoop]
  | succ k ih =>
    intro s buff hb
    match s, buff with
    | ⟨data, len, rd⟩, [] => simp at hb
    | ⟨data, len, rd⟩, b :: rest =>
      have h := ih ⟨data.tail, len - 1, rd + 1⟩ rest (by simpa using hb)
      simp only [readLoop] at h ⊢
      refine ⟨?_, ?_⟩ <;> omega

lemma readLoop_out : ∀ (n : Nat) (s : RawBytes) (buff : List UInt8),
    n ≤ buff.length →
    ((readLoop n s buff).2).length = buff.length ∧
    ((readLoop n s buff).2).drop n = buff.drop n := by
  intro n
  induction n with
  | zero =>
    intro s buff _
    simp [readLoop]
  | succ k ih =>
    intro s buff hb
    match s, buff with
    | ⟨data, len, rd⟩, [] => simp at hb
    | ⟨data, len, rd⟩, b :: rest =>
      have h := ih ⟨data.tail, len - 1, rd + 1⟩ rest (by simpa using hb)
      simp only [readLoop, List.length_cons, List.drop_succ_cons] at h ⊢
      exact ⟨by omega, h.2⟩

lemma writeLoop_len : ∀ (bs : List UInt8) (s : MutRawBytes),
    (writeLoop bs s).len = s.len - bs.length := by
  intro bs
  induction bs with
  | nil => intro s; simp [writeLoop]
  | cons b rest ih =>
    intro s
    simp only [writeLoop, ih, List.length_cons]
    omega

lemma runReads_consumed : ∀ (bs : List (List UInt8)) (s : RawBytes),
    ((runReads s bs).2).read = s.read + ((runReads s bs).1).sum := by
  intro bs
  induction bs with
  | nil => intro s; simp [runReads]
  | cons b rest ih =>
    intro s
    have hmin : min s.len b.length ≤ b.length := Nat.min_le_right _ _
    have hst := readLoop_state (min s.len b.length) s b hmin
    simp only [runReads, RawBytes.readImpl, ih]
    simp only [RawBytes.readImpl] at hst ⊢
    simp [List.sum_cons, hst.2]
    omega

lemma runReads_sum_le : ∀ (bs : List (List UInt8)) (s : RawBytes),
    ((runReads s bs).1).sum ≤ s.len := by
  intro bs
  induction bs with
  | nil => intro s; simp [runReads]
  | cons b rest ih =>
    intro s
    have hmin : min s.len b.length ≤ b.length := Nat.min_le_right _ _
    have hst := readLoop_state (min s.len b.length) s b hmin
    have hrest := ih (s.readImpl b).2.2
    simp only [RawBytes.readImpl] at hst hrest
    simp only [runReads, RawBytes.readImpl, List.sum_cons]
    have hle : min s.len b.length ≤ s.len := Nat.min_le_left _ _
    omega

lemma runWrites_sum_le : ∀ (bs : List (List UInt8)) (s : MutRawBytes),
    ((runWrites s bs).1).sum ≤ s.len := by
  intro bs
  induction bs with
  | nil => intro s; simp [runWrites]
  | cons b rest ih =>
    intro s
    have hlen : ((s.writeImpl b).2).len = s.len - min s.len b.length := by
      simp only [MutRawBytes.writeImpl, writeLoop_len, List.length_take]
      omega
    have hrest := ih (s.writeImpl b).2
    simp only [runWrites, List.sum_cons, MutRawBytes.writeImpl] at hrest ⊢
    simp only [MutRawBytes.writeImpl] at hlen
    have hle : min s.len b.length ≤ s.len := Nat.min_le_left _ _
    omega

/-! Claim theorems. -/

/-- C1: evaluation of `MutRawBytes::write` (src/raw.rs lines 56–69) at the
input of the repository's own test `should_write_to_mutrawbytes`: writing
`[1,2,3,4]` through a fresh cursor over four zero bytes returns 4 but
leaves the destination as `[4,0,0,0]` — every payload byte is stored at the
base position, because the loop re-reads the base pointer each iteration
and discards the incremented local — instead of `[1,2,3,4]` stored at
consecutive positions with the cursor advanced. -/
theorem mutRawBytes_write_stores_all_bytes_at_base :
    MutRawBytes.write (MutRawBytes.new [0, 0, 0, 0] 4) [1, 2, 3, 4] =
      Except.ok (4, ⟨[4, 0, 0, 0], 0⟩) ∧
    ([4, 0, 0, 0] : List UInt8) ≠ [1, 2, 3, 4] :=
  ⟨rfl, by decide⟩

/-- C7: for a write cursor with exactly 2 bytes remaining and a 10-byte
payload `p`, `MutRawBytes::write` of `p` is equal — returned count and
full cursor state (destination memory and remaining length) — to a write
of the 2-byte payload `p.take 2`. -/
theorem write_clamp_prefix_equiv
    (s : MutRawBytes) (p : List UInt8)
    (hlen : s.len = 2) (hp : p.length = 10) :
    s.write p = s.write (p.take 2) := by
  simp [MutRawBytes.write, MutRawBytes.writeImpl, hlen, hp, List.take_take]

/-- C7 witness: the theorem applied at a concrete cursor and payload. -/
theorem write_clamp_prefix_equiv_witness :
    (MutRawBytes.mk [0, 0] 2).len = 2 ∧
    ([0, 1, 2, 3, 4, 5, 6, 7, 8, 9] : List UInt8).length = 10 ∧
    MutRawBytes.write (MutRawBytes.mk [0, 0] 2) [0, 1, 2, 3, 4, 5, 6, 7, 8, 9] =
      MutRawBytes.write (MutRawBytes.mk [0, 0] 2)
        (([0, 1, 2, 3, 4, 5, 6, 7, 8, 9] : List UInt8).take 2) :=
  ⟨rfl, rfl, write_clamp_prefix_equiv (MutRawBytes.mk [0, 0] 2)
    [0, 1, 2, 3, 4, 5, 6, 7, 8, 9] rfl rfl⟩

/-- C8: on every `RawBytes::read` and `MutRawBytes::write` call the
remaining length decreases by exactly the returned count and the returned
count never exceeds the remaining length (no underflow); consequently, over
any sequence of calls on a cursor constructed with length `L`, the returned
counts sum to at most `L`. -/
theorem cursor_remaining_invariant
    (s : RawBytes) (t : MutRawBytes) (buff bs : List UInt8)
    (data : List UInt8) (L : Nat) (reads writes : List (List UInt8)) :
    (s.readImpl buff).2.2.len = s.len - (s.readImpl buff).1 ∧
    (s.readImpl buff).1 ≤ s.len ∧
    (t.writeImpl bs).2.len = t.len - (t.writeImpl bs).1 ∧
    (t.writeImpl bs).1 ≤ t.len ∧
    ((runReads (RawBytes.new data L) reads).1).sum ≤ L ∧
    ((runWrites (MutRawBytes.new data L) writes).1).sum ≤ L := by
  have hread := readLoop_state (min s.len buff.length) s buff
    (Nat.min_le_right _ _)
  refine ⟨?_, Nat.min_le_left _ _, ?_, Nat.min_le_left _ _, ?_, ?_⟩
  · simpa [RawBytes.readImpl] using hread.1
  · simp only [MutRawBytes.writeImpl, writeLoop_len, List.length_take]
    omega
  · exact runReads_sum_le reads (RawBytes.new data L)
  · exact runWrites_sum_le writes (MutRawBytes.new data L)

/-- C9: `RawBytes::read`, `MutRawBytes::write` and `MutRawBytes::flush`
are total: for every cursor state and input buffer they return `Ok` — the
`io::Result` error branch is unreachable, including with zero bytes
remaining. -/
theorem cursor_ops_total
    (s : RawBytes) (t : MutRawBytes) (buff bs : List UInt8) :
    (∃ v, s.ioRead buff = Except.ok v) ∧
    (∃ w, t.write bs = Except.ok w) ∧
    t.flush = Except.ok () :=
  ⟨⟨_, rfl⟩, ⟨_, rfl⟩, rfl⟩

/-- C10: a `RawBytes::read` call keeps the destination buffer's length and
leaves every destination byte at or past the returned count unchanged: a
short read writes nothing past the returned count. -/
theorem read_short_leaves_tail
    (s : RawBytes) (buff : List UInt8) :
    ((s.readImpl buff).2.1).length = buff.length ∧
    ((s.readImpl buff).2.1).drop (s.readImpl buff).1 =
      buff.drop (s.readImpl buff).1 := by
  have h := readLoop_out (min s.len buff.length) s buff (Nat.min_le_right _ _)
  exact ⟨h.1, h.2⟩

/-- C4: for a well-formed `RawBytes` cursor (remaining clamp within the
source region), every `read` call returns exactly `min(remaining,
destination size)`, fills the destination's prefix with the next
not-yet-consumed source bytes in order, advances the source view by that
count, adds that count to `consumed`, returns 0 (not a failure) when 0
bytes remain, never takes the error branch, and over any sequence of calls
on a fresh cursor `consumed()` equals the sum of the returned counts. -/
theorem read_cursor_clamp_and_consumed
    (s : RawBytes) (buff : List UInt8) (data : List UInt8) (L : Nat)
    (bs : List (List UInt8)) (hwf : s.len ≤ s.data.length) :
    (s.readImpl buff).1 = min s.len buff.length ∧
    (s.readImpl buff).2.1 =
      s.data.take (s.readImpl buff).1 ++ buff.drop (s.readImpl buff).1 ∧
    (s.readImpl buff).2.2.data = s.data.drop (s.readImpl buff).1 ∧
    (s.readImpl buff).2.2.consumed = s.consumed + (s.readImpl buff).1 ∧
    (s.len = 0 → (s.readImpl buff).1 = 0) ∧
    s.ioRead buff = Except.ok (s.readImpl buff) ∧
    ((runReads (RawBytes.new data L) bs).2).consumed =
      ((runReads (RawBytes.new data L) bs).1).sum := by
  have hmin : min s.len buff.length ≤ buff.length := Nat.min_le_right _ _
  have hmin' : min s.len buff.length ≤ s.data.length :=
    le_trans (Nat.min_le_left _ _) hwf
  have hspec := readLoop_spec (min s.len buff.length) s buff hmin hmin'
  have hcons := runReads_consumed bs (RawBytes.new data L)
  refine ⟨rfl, ?_, ?_, ?_, ?_, rfl, ?_⟩
  · simp [RawBytes.readImpl, hspec]
  · simp [RawBytes.readImpl, hspec]
  · simp [RawBytes.readImpl, RawBytes.consumed, hspec]
  · intro h0
    simp [RawBytes.readImpl, h0]
  · simpa [RawBytes.consumed, RawBytes.new] using hcons

/-- C4 witness: the theorem applied to a cursor over `[1,2,3,4]` with a
2-byte destination and a concrete call sequence. -/
theorem read_cursor_clamp_and_consumed_witness :
    (RawBytes.mk [1, 2, 3, 4] 4 0).len ≤
      (RawBytes.mk [1, 2, 3, 4] 4 0).data.length ∧
    (((RawBytes.mk [1, 2, 3, 4] 4 0).readImpl [0, 0]).1 =
      min (RawBytes.mk [1, 2, 3, 4] 4 0).len ([0, 0] : List UInt8).length ∧
    ((RawBytes.mk [1, 2, 3, 4] 4 0).readImpl [0, 0]).2.1 =
      (RawBytes.mk [1, 2, 3, 4] 4 0).data.take
        (((RawBytes.mk [1, 2, 3, 4] 4 0).readImpl [0, 0]).1) ++
      ([0, 0] : List UInt8).drop
        (((RawBytes.mk [1, 2, 3, 4] 4 0).readImpl [0, 0]).1) ∧
    ((RawBytes.mk [1, 2, 3, 4] 4 0).readImpl [0, 0]).2.2.data =
      (RawBytes.mk [1, 2, 3, 4] 4 0).data.drop
        (((RawBytes.mk [1, 2, 3, 4] 4 0).readImpl [0, 0]).1) ∧
    ((RawBytes.mk [1, 2, 3, 4] 4 0).readImpl [0, 0]).2.2.consumed =
      (RawBytes.mk [1, 2, 3, 4] 4 0).consumed +
        (((RawBytes.mk [1, 2, 3, 4] 4 0).readImpl [0, 0]).1) ∧
    ((RawBytes.mk [1, 2, 3, 4] 4 0).len = 0 →
      ((RawBytes.mk [1, 2, 3, 4] 4 0).readImpl [0, 0]).1 = 0) ∧
    (RawBytes.mk [1, 2, 3, 4] 4 0).ioRead [0, 0] =
      Except.ok ((RawBytes.mk [1, 2, 3, 4] 4 0).readImpl [0, 0]) ∧
    ((runReads (RawBytes.new [9, 8, 7] 3) [[0, 0], [0, 0, 0]]).2).consumed =
      ((runReads (RawBytes.new [9, 8, 7] 3) [[0, 0], [0, 0, 0]]).1).sum) :=
  ⟨by decide,
   read_cursor_clamp_and_consumed (RawBytes.mk [1, 2, 3, 4] 4 0) [0, 0]
     [9, 8, 7] 3 [[0, 0], [0, 0, 0]] (by decide)⟩

/-- C5: whenever the commit primitive reports a status other than
`FS6IPC_MESSAGE_SUCCESS`, `UserSession::process` fails with the
peer-rejected error carrying that status and performs no demultiplexing:
for every response stream and every heap of registered destinations the
result is that same error, so no frame is decoded and no destination is
written. -/
theorem process_peer_reject_no_demux
    (buffer : MutRawBytes) (send_result : Int) (response : List UInt8)
    (heap : Heap) (hfit : 1 ≤ buffer.len)
    (hst : send_result ≠ FS6IPC_MESSAGE_SUCCESS) :
    UserSession.process buffer send_result response heap =
      Except.error ("FSUIPC rejected the requests with error "
        ++ toString send_result ++ "; possible buffer corruption") := by
  have hlen : (headerBytes MsgHeader.TerminationMark).length ≤ buffer.len := by
    simpa [headerBytes] using hfit
  simp [UserSession.process, MutRawBytes.write_header, hlen, hst]

/-- C5 witness: the theorem applied at a concrete session buffer, peer
status 0, a non-empty response stream and a populated heap. -/
theorem process_peer_reject_no_demux_witness :
    1 ≤ (MutRawBytes.mk [0, 0, 0, 0] 4).len ∧
    (0 : Int) ≠ FS6IPC_MESSAGE_SUCCESS ∧
    UserSession.process (MutRawBytes.mk [0, 0, 0, 0] 4) 0 [1, 2, 3]
        (fun _ => [5, 5]) =
      Except.error ("FSUIPC rejected the requests with error "
        ++ toString (0 : Int) ++ "; possible buffer corruption") :=
  ⟨by decide, by decide,
   process_peer_reject_no_demux (MutRawBytes.mk [0, 0, 0, 0] 4) 0 [1, 2, 3]
     (fun _ => [5, 5]) (by decide) (by decide)⟩

/-- C6: a `UserSession::read_bytes` or `UserSession::write_bytes` call
whose encoded frame does not fit in the remaining shared-buffer capacity
fails with `BufferExhausted` at the call site and returns the buffer state
unchanged, leaving previously queued frames untouched. -/
theorem queueing_exhausted_leaves_buffer
    (s : MutRawBytes) (offset dest len : Nat) (payload : List UInt8)
    (hr : s.len <
      (headerBytes (MsgHeader.ReadStateData offset len dest)).length)
    (hw : s.len <
      (headerBytes (MsgHeader.WriteStateData offset payload.length)).length
        + payload.length) :
    UserSession.read_bytes s offset dest len =
      (Except.error "BufferExhausted", s) ∧
    UserSession.write_bytes s offset payload =
      (Except.error "BufferExhausted", s) := by
  constructor
  · simp only [UserSession.read_bytes, MutRawBytes.write_rsd]
    rw [if_neg (by omega)]
  · simp only [UserSession.write_bytes, MutRawBytes.write_wsd]
    rw [if_neg (by simp only [List.length_append]; omega)]

/-- C6 witness: the theorem applied to a buffer with 2 bytes remaining and
frames of 9 and 6 encoded bytes. -/
theorem queueing_exhausted_leaves_buffer_witness :
    (MutRawBytes.mk [0, 0] 2).len <
      (headerBytes (MsgHeader.ReadStateData 7 4 3)).length ∧
    (MutRawBytes.mk [0, 0] 2).len <
      (headerBytes (MsgHeader.WriteStateData 7
        ([1] : List UInt8).length)).length + ([1] : List UInt8).length ∧
    (UserSession.read_bytes (MutRawBytes.mk [0, 0] 2) 7 3 4 =
      (Except.error "BufferExhausted", MutRawBytes.mk [0, 0] 2) ∧
    UserSession.write_bytes (MutRawBytes.mk [0, 0] 2) 7 [1] =
      (Except.error "BufferExhausted", MutRawBytes.mk [0, 0] 2)) :=
  ⟨by decide, by decide,
   queueing_exhausted_leaves_buffer (MutRawBytes.mk [0, 0] 2) 7 3 4 [1]
     (by decide) (by decide)⟩

/-- C2: evaluation of `UserSession::process` on the spec's end-to-end
scenario.  The peer accepts the commit with status 1 and leaves a response
stream whose first frame is the queued `read(0x10, 4)` — its header
followed by the payload `[0xAA,0xBB,0xCC,0xDD]` — then the
`write(0x20, [1,2])` echo, then the termination frame.  The registered
4-byte destination at address `0x4000` starts as `[0,0,0,0]`; after
`process` returns successfully (consuming 21 response bytes) it holds
`[0xDD,0,0,0]` — the demultiplexer pushes the payload through
`MutRawBytes::write`, which stores every byte at the destination's base
position — and not the `[0xAA,0xBB,0xCC,0xDD]` the claim requires. -/
theorem process_scenario_destination_not_filled :
    (UserSession.process (MutRawBytes.new (List.replicate 16 0) 16) 1
      ([1, 0x10, 0, 4, 0, 0, 0x40, 0, 0] ++ [0xAA, 0xBB, 0xCC, 0xDD] ++
       [2, 0x20, 0, 2, 0] ++ [1, 2] ++ [0])
      (fun t => if t = 0x4000 then [0, 0, 0, 0] else [])).map
      (fun r => (r.1, r.2 0x4000)) = Except.ok (21, [0xDD, 0, 0, 0]) ∧
    ([0xDD, 0, 0, 0] : List UInt8) ≠ [0xAA, 0xBB, 0xCC, 0xDD] :=
  ⟨rfl, by decide⟩

/-- C3: evaluation of the `UserSession::process` demultiplexing loop on a
successful commit whose response stream holds a `WriteRequest` echo frame
(payload `[9,9]`, discarded), then a `ReadRequest` frame of length 3 with
payload `[0x11,0x22,0x33]` registered for destination `0x77` starting as
`[5,6,7]`, then the termination frame.  The loop does discard the write
echo with no local effect, stops at the termination frame and returns the
20 response bytes consumed; but the read frame's payload is not copied
into its destination: the destination ends as `[0x33,6,7]` — all payload
bytes stored at its base position by `MutRawBytes::write` — instead of
`[0x11,0x22,0x33]`. -/
theorem process_demux_copy_misses_destination :
    (UserSession.process (MutRawBytes.new (List.replicate 32 0) 32) 1
      ([2, 0x40, 0, 2, 0] ++ [9, 9] ++
       [1, 0x30, 0, 3, 0, 0x77, 0, 0, 0] ++ [0x11, 0x22, 0x33] ++ [0])
      (fun t => if t = 0x77 then [5, 6, 7] else [])).map
      (fun r => (r.1, r.2 0x77)) = Except.ok (20, [0x33, 6, 7]) ∧
    ([0x33, 6, 7] : List UInt8) ≠ [0x11, 0x22, 0x33] :=
  ⟨rfl, by decide⟩

